import Mathlib

/-!
Verification of the Link-Shortener bot (`src/bot.py`): a shallow embedding of
its MongoDB-backed credit ledger, referral engine, membership gate and
conversation handlers, together with proofs and refutations of the stated
properties.

The MongoDB `users` collection is modelled as a list of user documents
(duplicates are possible, exactly as in a collection without a unique index);
`find_one` is `List.find?`, `insert_one` appends, and `update_one` updates the
first matching document.  The singleton `stats` document is one record.
External services (the Telegram membership oracle, the spoo.me shortening API)
are oracle parameters.
-/

namespace LinkShortener

/-- A document of the `users` collection (see `get_user` in bot.py). -/
structure UserRecord where
  user_id : Int
  credits : Int
  urls_created : Int
  referral_code : String
  referred_by : Option String
  referral_count : Int
deriving Repr, DecidableEq

/-- The singleton document of the `stats` collection. -/
structure StatsRecord where
  total_urls_created : Int
  total_credits_used : Int
deriving Repr, DecidableEq

/-- The database: the `users` collection plus the stats singleton. -/
structure DB where
  users : List UserRecord
  stats : StatsRecord
deriving Repr, DecidableEq

/-- `CONFIG['welcome_credits']` in bot.py. -/
def welcome_credits : Int := 15

/-- `CONFIG['cost_per_url']` in bot.py. -/
def cost_per_url : Int := 5

/-- `CONFIG['referral_bonus']` in bot.py. -/
def referral_bonus : Int := 5

/-- The referral code assigned at creation: `f"ref{user_id}"` in `get_user`. -/
def referral_code_of (user_id : Int) : String := "ref" ++ toString user_id

/-- `update_one(filter, ...)` semantics: rewrite the first document matching
the filter, leave the rest untouched (a no-op when nothing matches). -/
def updateFirst (p : UserRecord → Bool) (f : UserRecord → UserRecord) :
    List UserRecord → List UserRecord
  | [] => []
  | u :: us => if p u then f u :: us else u :: updateFirst p f us

/-- `users_collection.find_one({'user_id': user_id})`. -/
def find_user (db : DB) (user_id : Int) : Option UserRecord :=
  db.users.find? (fun u => u.user_id == user_id)

/-- The fresh document built inside `get_user` for an unseen id. -/
def newUserRecord (user_id : Int) : UserRecord :=
  { user_id := user_id
    credits := welcome_credits
    urls_created := 0
    referral_code := referral_code_of user_id
    referred_by := none
    referral_count := 0 }

/-- `get_user`: `find_one`, and when absent build the default document and
`insert_one` it.  Read-then-write, exactly as in the source. -/
def get_user (db : DB) (user_id : Int) : UserRecord × DB :=
  match find_user db user_id with
  | some u => (u, db)
  | none =>
      let u := newUserRecord user_id
      (u, { db with users := db.users ++ [u] })

/-- `update_stats`: `stats_collection.update_one({}, {'$inc': ...})` with the
two counter deltas. -/
def update_stats (db : DB) (d_urls d_credits : Int) : DB :=
  { db with stats :=
      { total_urls_created := db.stats.total_urls_created + d_urls
        total_credits_used := db.stats.total_credits_used + d_credits } }

/-- `is_admin`: membership of the id in `CONFIG['admin_ids']`. -/
def is_admin (admin_ids : List Int) (user_id : Int) : Bool :=
  admin_ids.contains user_id

/-- `has_sufficient_credits`: calls `get_user` (which may create the record)
and compares the balance with the per-URL cost. -/
def has_sufficient_credits (db : DB) (user_id : Int) : Bool × DB :=
  let r := get_user db user_id
  (decide (cost_per_url ≤ r.1.credits), r.2)

/-- `deduct_credits`: one `$inc` of `credits` by `-cost_per_url` and
`urls_created` by `1` on the user's document, then `update_stats`.  The
source performs no balance check here. -/
def deduct_credits (db : DB) (user_id : Int) : DB :=
  let users1 :=
    updateFirst (fun u => u.user_id == user_id)
      (fun u => { u with credits := u.credits - cost_per_url,
                         urls_created := u.urls_created + 1 })
      db.users
  update_stats { db with users := users1 } 1 cost_per_url

/-- `add_credits`: one `$inc` of `credits` by `amount` (positive or negative,
no clamping in the source). -/
def add_credits (db : DB) (user_id : Int) (amount : Int) : DB :=
  let users1 :=
    updateFirst (fun u => u.user_id == user_id)
      (fun u => { u with credits := u.credits + amount })
      db.users
  { db with users := users1 }

/-- `handle_referral`: look the referrer up by `referral_code`; if found and
the new user has no document yet, create it via `get_user`, `$set` its
`referred_by`, and `$inc` the referrer's `referral_count` and `credits`. -/
def handle_referral (db : DB) (user_id : Int) (ref_code : String) : DB :=
  match db.users.find? (fun u => u.referral_code == ref_code) with
  | none => db
  | some referring =>
    match find_user db user_id with
    | some _ => db
    | none =>
        let db1 := (get_user db user_id).2
        let users2 :=
          updateFirst (fun u => u.user_id == user_id)
            (fun u => { u with referred_by := some ref_code })
            db1.users
        let db2 : DB := { db1 with users := users2 }
        let users3 :=
          updateFirst (fun u => u.user_id == referring.user_id)
            (fun u => { u with referral_count := u.referral_count + 1,
                               credits := u.credits + referral_bonus })
            db2.users
        { db2 with users := users3 }

/-- The ledger-visible core of `remove_credits_cmd` (`/removecredits`): it
fetches the document with `get_user`, then reassigns `user['credits']` on the
**local Python dict only** — no `update_one` follows, so the returned record
is the clamped local copy while the database is only changed by the possible
`get_user` creation. -/
def remove_credits_cmd (db : DB) (user_id : Int) (amount : Int) :
    UserRecord × DB :=
  let r := get_user db user_id
  ({ r.1 with credits := max 0 (r.1.credits - amount) }, r.2)

/-! ### Membership gate (`is_user_member`, `channel_required`) -/

/-- A chat-member status as reported by the Telegram API. -/
inductive MemberStatus where
  | member | administrator | creator | restricted | left | kicked
deriving Repr, DecidableEq

/-- The status test in `is_user_member`:
`chat_member.status in ["member", "administrator", "creator"]`. -/
def statusOk : MemberStatus → Bool
  | .member => true
  | .administrator => true
  | .creator => true
  | _ => false

/-- The membership oracle: for a channel name, `some s` is a successful
`get_chat_member` call returning status `s`; `none` is a raised exception. -/
def MemberOracle : Type := String → Option MemberStatus

/-- `is_user_member`: loop over the required channels; an exception or a
status outside member/administrator/creator returns `False` at once;
`True` only after every channel passes. -/
def is_user_member (oracle : MemberOracle) : List String → Bool
  | [] => true
  | ch :: rest =>
      match oracle ch with
      | none => false
      | some s => if statusOk s then is_user_member oracle rest else false

/-- Outcome of the `channel_required` decorator around a handler. -/
inductive GateOutcome where
  | ranHandler
  | askedToJoin
deriving Repr, DecidableEq

/-- `channel_required`: admins run the handler immediately; otherwise the
handler runs only when `is_user_member` passes, else the join prompt is
shown. -/
def channel_required (admin_ids : List Int) (channels : List String)
    (oracle : MemberOracle) (user_id : Int) : GateOutcome :=
  if is_admin admin_ids user_id then .ranHandler
  else if is_user_member oracle channels then .ranHandler
  else .askedToJoin

/-! ### Conversation flow handlers (`handle_url`, `handle_emojis`) -/

/-- A response of the shortening API as seen by the handler: `none` models a
request exception or a non-2xx status (`raise_for_status`); `some none` a
successful response whose JSON has no `short_url` field; `some (some s)` a
successful response carrying `short_url = s`. -/
def ApiResponse : Type := Option (Option String)

/-- What the handler replied before returning `ConversationHandler.END`
(every path of `handle_url` / `handle_emojis` returns END). -/
inductive FlowResult where
  | success (short_url : String)
  | errorMsg
deriving Repr, DecidableEq

/-- The scheme check in `handle_url`:
`url.startswith(('http://', 'https://'))`, as a prefix test on the
character sequence. -/
def schemeOk (url : String) : Bool :=
  List.isPrefixOf "http://".data url.data || List.isPrefixOf "https://".data url.data

/-- `handle_url`: validate the scheme, POST to the shortener, check the
`short_url` field; only then `deduct_credits`.  Any raised error is caught,
reported, and the conversation ends with the database untouched. -/
def handle_url (db : DB) (user_id : Int) (url : String)
    (api : String → ApiResponse) : FlowResult × DB :=
  if !schemeOk url then (.errorMsg, db)
  else
    match api url with
    | none => (.errorMsg, db)
    | some none => (.errorMsg, db)
    | some (some short_url) => (.success short_url, deduct_credits db user_id)

/-- Python's `not emojis.strip()`: true when every character is whitespace
(including the empty string). -/
def strip_isEmpty (s : String) : Bool :=
  s.data.all fun c =>
    c == ' ' || c == '\t' || c == '\n' || c == '\x0d' || c == '\x0b' || c == '\x0c'

/-- `handle_emojis`: reject a whitespace-only emoji sequence, POST the stored
URL and the emojis, check `short_url`; only then `deduct_credits`.  Any
raised error is caught and the conversation ends with the database
untouched. -/
def handle_emojis (db : DB) (user_id : Int) (stored_url emojis : String)
    (api : String → String → ApiResponse) : FlowResult × DB :=
  if strip_isEmpty emojis then (.errorMsg, db)
  else
    match api stored_url emojis with
    | none => (.errorMsg, db)
    | some none => (.errorMsg, db)
    | some (some short_url) => (.success short_url, deduct_credits db user_id)

/-! ### Interleaved execution of `get_user` (for the concurrency claim)

`get_user` is a `find_one` followed, when nothing was found, by a separate
`insert_one`.  Each concurrent call is a task taking those two store steps;
a schedule interleaves the steps of two tasks over the shared database. -/

/-- `insert_one` of the default document, the write half of `get_user`. -/
def insert_user (db : DB) (user_id : Int) : DB :=
  { db with users := db.users ++ [newUserRecord user_id] }

/-- Progress of one in-flight `get_user` call: `fetched` holds the result of
its `find_one` once performed; `finished` marks the call returned. -/
structure TaskState where
  fetched : Option (Option UserRecord)
  finished : Bool
deriving Repr, DecidableEq

/-- A task that has not yet executed its `find_one`. -/
def initTask : TaskState := { fetched := none, finished := false }

/-- One store step of an in-flight `get_user user_id` call: first the
`find_one`, then — only if that found nothing — the `insert_one`. -/
def stepTask (user_id : Int) (db : DB) (t : TaskState) : DB × TaskState :=
  match t.fetched with
  | none => (db, { fetched := some (find_user db user_id), finished := false })
  | some r =>
      if t.finished then (db, t)
      else
        match r with
        | some _ => (db, { t with finished := true })
        | none => (insert_user db user_id, { t with finished := true })

/-- Run a schedule over two concurrent `get_user user_id` calls: `false`
steps the first task, `true` the second. -/
def runSched (user_id : Int) :
    List Bool → DB × TaskState × TaskState → DB × TaskState × TaskState
  | [], s => s
  | b :: rest, (db, t0, t1) =>
      if b then
        let r := stepTask user_id db t1
        runSched user_id rest (r.1, t0, r.2)
      else
        let r := stepTask user_id db t0
        runSched user_id rest (r.1, r.2, t1)

/-! ### Reachable database states

States reachable through the ledger-mutating entry points of the bot: lazy
record creation (`get_user`, reached from `/start`, `/profile`, …), the
admin `/addcredits` and `/removecredits` commands (whose parsed amount is any
integer), referral attribution on `/start <code>`, and the two shortening
flows, each entered only after the `has_sufficient_credits` guard. -/

/-- The empty initial database (startup inserts the zeroed stats record). -/
def initDB : DB := { users := [], stats := { total_urls_created := 0, total_credits_used := 0 } }

/-- Database states reachable through the bot's handlers. -/
inductive Reachable : DB → Prop where
  | init : Reachable initDB
  | step_get (db : DB) (uid : Int) :
      Reachable db → Reachable (get_user db uid).2
  | step_add (db : DB) (uid amount : Int) :
      Reachable db → Reachable (add_credits db uid amount)
  | step_remove (db : DB) (uid amount : Int) :
      Reachable db → Reachable (remove_credits_cmd db uid amount).2
  | step_referral (db : DB) (uid : Int) (code : String) :
      Reachable db → Reachable (handle_referral db uid code)
  | step_url (db : DB) (uid : Int) (url : String) (api : String → ApiResponse) :
      Reachable db → (has_sufficient_credits db uid).1 = true →
      Reachable (handle_url (has_sufficient_credits db uid).2 uid url api).2
  | step_emojis (db : DB) (uid : Int) (stored_url emojis : String)
      (api : String → String → ApiResponse) :
      Reachable db → (has_sufficient_credits db uid).1 = true →
      Reachable (handle_emojis (has_sufficient_credits db uid).2 uid stored_url emojis api).2

/-! ### Lemmas about `updateFirst` and `find?` -/

theorem find?_updateFirst_same (p : UserRecord → Bool) (f : UserRecord → UserRecord)
    (hf : ∀ u, p (f u) = p u) :
    ∀ l : List UserRecord, List.find? p (updateFirst p f l) = (List.find? p l).map f := by
  intro l
  induction l with
  | nil => rfl
  | cons u us ih =>
    by_cases hu : p u
    · simp [updateFirst, hu, hf u]
    · simp [updateFirst, hu, ih]

theorem find?_isSome_updateFirst (p q : UserRecord → Bool) (f : UserRecord → UserRecord)
    (hq : ∀ u, q (f u) = q u) :
    ∀ l : List UserRecord,
      (List.find? q (updateFirst p f l)).isSome = (List.find? q l).isSome := by
  intro l
  induction l with
  | nil => rfl
  | cons u us ih =>
    by_cases hp : p u
    · by_cases hu : q u
      · simp [updateFirst, hp, hu, hq u]
      · simp [updateFirst, hp, hu, hq u]
    · by_cases hu : q u
      · simp [updateFirst, hp, hu]
      · simp [updateFirst, hp, hu, ih]

theorem mem_updateFirst {p : UserRecord → Bool} {f : UserRecord → UserRecord}
    {l : List UserRecord} {v : UserRecord} (hv : v ∈ updateFirst p f l) :
    v ∈ l ∨ ∃ u, u ∈ l ∧ v = f u := by
  induction l with
  | nil => simp [updateFirst] at hv
  | cons u us ih =>
    by_cases hp : p u
    · simp only [updateFirst, hp, if_true, List.mem_cons] at hv
      rcases hv with h1 | h1
      · exact Or.inr ⟨u, List.mem_cons_self u us, h1⟩
      · exact Or.inl (List.mem_cons_of_mem u h1)
    · simp only [updateFirst, hp, if_false, Bool.false_eq_true, List.mem_cons] at hv
      rcases hv with h1 | h1
      · exact Or.inl (h1 ▸ List.mem_cons_self u us)
      · rcases ih h1 with h2 | ⟨w, hw, hv'⟩
        · exact Or.inl (List.mem_cons_of_mem u h2)
        · exact Or.inr ⟨w, List.mem_cons_of_mem u hw, hv'⟩

theorem find_user_eq_beq (db : DB) (uid : Int) :
    find_user db uid = db.users.find? (fun u => u.user_id == uid) := rfl

/-! ### The referral code is injective in the user id

`referral_code_of` is `"ref" ++ toString user_id`; its injectivity reduces to
the injectivity of the decimal rendering of integers.  `repOf` is the decimal
digit list (most significant first) that core's fuelled `Nat.toDigitsCore`
produces. -/

/-- Decimal digit characters of `n`, most significant first. -/
def repOf (n : Nat) : List Char :=
  if n < 10 then [Nat.digitChar n]
  else repOf (n / 10) ++ [Nat.digitChar (n % 10)]
decreasing_by exact Nat.div_lt_self (by omega) (by omega)

theorem repOf_eq_small {n : Nat} (h : n < 10) : repOf n = [Nat.digitChar n] := by
  rw [repOf]; simp [h]

theorem repOf_eq_large {n : Nat} (h : ¬ n < 10) :
    repOf n = repOf (n / 10) ++ [Nat.digitChar (n % 10)] := by
  rw [repOf]; simp [h]

theorem repOf_ne_nil (n : Nat) : repOf n ≠ [] := by
  by_cases h : n < 10
  · rw [repOf_eq_small h]; simp
  · rw [repOf_eq_large h]; simp

theorem toDigitsCore_eq_repOf :
    ∀ (fuel n : Nat) (ds : List Char), n < fuel →
      Nat.toDigitsCore 10 fuel n ds = repOf n ++ ds := by
  intro fuel
  induction fuel with
  | zero => intro n ds h; omega
  | succ f ih =>
    intro n ds h
    by_cases h0 : n / 10 = 0
    · have hn : n < 10 := (Nat.div_eq_zero_iff (by omega)).mp h0
      simp [Nat.toDigitsCore, h0, repOf_eq_small hn, Nat.mod_eq_of_lt hn]
    · have hn : ¬ n < 10 := fun hlt => h0 (Nat.div_eq_of_lt hlt)
      have hlt : n / 10 < f := by
        have hself : n / 10 < n := Nat.div_lt_self (by omega) (by omega)
        omega
      simp only [Nat.toDigitsCore, h0, if_false]
      rw [ih (n / 10) _ hlt, repOf_eq_large hn, List.append_assoc]
      rfl

theorem asString_data (l : List Char) : (List.asString l).data = l := rfl

theorem natRepr_data (n : Nat) : (Nat.repr n).data = repOf n := by
  show (Nat.toDigits 10 n).asString.data = repOf n
  rw [Nat.toDigits, toDigitsCore_eq_repOf (n + 1) n [] (Nat.lt_succ_self n),
    asString_data, List.append_nil]

theorem digitChar_inj_lt {a b : Nat} (ha : a < 10) (hb : b < 10)
    (hab : Nat.digitChar a = Nat.digitChar b) : a = b := by
  have h : ∀ x y : Fin 10, Nat.digitChar x.val = Nat.digitChar y.val → x = y := by decide
  have := h ⟨a, ha⟩ ⟨b, hb⟩ hab
  exact congrArg Fin.val this

theorem digitChar_ne_dash {d : Nat} (hd : d < 10) : Nat.digitChar d ≠ '-' := by
  have h : ∀ x : Fin 10, Nat.digitChar x.val ≠ '-' := by decide
  exact h ⟨d, hd⟩

theorem repOf_head_digit (n : Nat) :
    ∃ d rest, d < 10 ∧ repOf n = Nat.digitChar d :: rest := by
  induction n using Nat.strong_induction_on with
  | _ n ih =>
    by_cases h : n < 10
    · exact ⟨n, [], h, by rw [repOf_eq_small h]⟩
    · obtain ⟨d, rest, hd, hrep⟩ := ih (n / 10) (Nat.div_lt_self (by omega) (by omega))
      refine ⟨d, rest ++ [Nat.digitChar (n % 10)], hd, ?_⟩
      rw [repOf_eq_large h, hrep]
      rfl

theorem repOf_inj : ∀ a b : Nat, repOf a = repOf b → a = b := by
  intro a
  induction a using Nat.strong_induction_on with
  | _ a ih =>
    intro b hab
    by_cases ha : a < 10 <;> by_cases hb : b < 10
    · rw [repOf_eq_small ha, repOf_eq_small hb] at hab
      exact digitChar_inj_lt ha hb (List.cons.inj hab).1
    · rw [repOf_eq_small ha, repOf_eq_large hb] at hab
      have hlen := congrArg List.length hab
      simp only [List.length_cons, List.length_nil, List.length_append] at hlen
      have : repOf (b / 10) = [] := List.length_eq_zero.mp (by omega)
      exact absurd this (repOf_ne_nil _)
    · rw [repOf_eq_large ha, repOf_eq_small hb] at hab
      have hlen := congrArg List.length hab
      simp only [List.length_cons, List.length_nil, List.length_append] at hlen
      have : repOf (a / 10) = [] := List.length_eq_zero.mp (by omega)
      exact absurd this (repOf_ne_nil _)
    · rw [repOf_eq_large ha, repOf_eq_large hb] at hab
      obtain ⟨h1, h2⟩ := List.append_inj' hab rfl
      have hdiv : a / 10 = b / 10 :=
        ih (a / 10) (Nat.div_lt_self (by omega) (by omega)) (b / 10) h1
      have hmod : a % 10 = b % 10 :=
        digitChar_inj_lt (Nat.mod_lt _ (by omega)) (Nat.mod_lt _ (by omega))
          (List.cons.inj h2).1
      omega

theorem natRepr_inj {a b : Nat} (h : Nat.repr a = Nat.repr b) : a = b :=
  repOf_inj a b (by rw [← natRepr_data, ← natRepr_data, h])

theorem natRepr_head (n : Nat) :
    ∃ d rest, d < 10 ∧ (Nat.repr n).data = Nat.digitChar d :: rest := by
  obtain ⟨d, rest, hd, h⟩ := repOf_head_digit n
  exact ⟨d, rest, hd, by rw [natRepr_data, h]⟩

theorem intToString_inj : ∀ a b : Int, toString a = toString b → a = b := by
  intro a b h
  cases a with
  | ofNat m =>
    cases b with
    | ofNat k =>
      have hm : Nat.repr m = Nat.repr k := h
      exact congrArg Int.ofNat (natRepr_inj hm)
    | negSucc k =>
      have hm : Nat.repr m = "-" ++ Nat.repr (k + 1) := h
      obtain ⟨d, rest, hd, hdata⟩ := natRepr_head m
      have := congrArg String.data hm
      rw [hdata, String.data_append] at this
      exact absurd (List.cons.inj this).1 (digitChar_ne_dash hd)
  | negSucc m =>
    cases b with
    | ofNat k =>
      have hm : "-" ++ Nat.repr (m + 1) = Nat.repr k := h
      obtain ⟨d, rest, hd, hdata⟩ := natRepr_head k
      have := congrArg String.data hm
      rw [hdata, String.data_append] at this
      exact absurd (List.cons.inj this.symm).1 (digitChar_ne_dash hd)
    | negSucc k =>
      have hm : "-" ++ Nat.repr (m + 1) = "-" ++ Nat.repr (k + 1) := h
      have hdata := congrArg String.data hm
      rw [String.data_append, String.data_append] at hdata
      have h2 : (Nat.repr (m + 1)).data = (Nat.repr (k + 1)).data :=
        List.append_cancel_left hdata
      have h3 := natRepr_inj (String.ext h2)
      exact congrArg Int.negSucc (by omega)

theorem referral_code_of_inj {a b : Int}
    (h : referral_code_of a = referral_code_of b) : a = b := by
  have hd := congrArg String.data h
  simp only [referral_code_of, String.data_append] at hd
  exact intToString_inj a b (String.ext (List.append_cancel_left hd))

/-! ### Stored referral codes always derive from the record's id -/

/-- Every document in the list carries the referral code derived from its
own id. -/
def WFusers (l : List UserRecord) : Prop :=
  ∀ u ∈ l, u.referral_code = referral_code_of u.user_id

/-- Every stored document carries the referral code derived from its own id
(records are only ever created by `get_user`, and no update touches
`referral_code` or `user_id`). -/
def WFcodes (db : DB) : Prop := WFusers db.users

theorem wfusers_updateFirst {l : List UserRecord} (h : WFusers l)
    (p : UserRecord → Bool) (f : UserRecord → UserRecord)
    (hid : ∀ u, (f u).user_id = u.user_id)
    (hcode : ∀ u, (f u).referral_code = u.referral_code) :
    WFusers (updateFirst p f l) := by
  intro v hv
  rcases mem_updateFirst hv with h1 | ⟨u, hu, rfl⟩
  · exact h v h1
  · rw [hcode, hid]
    exact h u hu

theorem wfcodes_get_user {db : DB} (h : WFcodes db) (uid : Int) :
    WFcodes (get_user db uid).2 := by
  cases hf : find_user db uid with
  | some u => simpa only [get_user, hf] using h
  | none =>
    simp only [get_user, hf]
    intro v hv
    simp only [List.mem_append, List.mem_singleton] at hv
    rcases hv with h1 | rfl
    · exact h v h1
    · rfl

theorem wfcodes_deduct {db : DB} (h : WFcodes db) (uid : Int) :
    WFcodes (deduct_credits db uid) :=
  wfusers_updateFirst h _ _ (fun _ => rfl) (fun _ => rfl)

theorem wfcodes_add {db : DB} (h : WFcodes db) (uid amount : Int) :
    WFcodes (add_credits db uid amount) :=
  wfusers_updateFirst h _ _ (fun _ => rfl) (fun _ => rfl)

theorem wfcodes_handle_referral {db : DB} (h : WFcodes db) (uid : Int) (code : String) :
    WFcodes (handle_referral db uid code) := by
  cases h1 : db.users.find? (fun u => u.referral_code == code) with
  | none => simpa only [handle_referral, h1] using h
  | some referring =>
    cases h2 : find_user db uid with
    | some u => simpa only [handle_referral, h1, h2] using h
    | none =>
      simp only [handle_referral, h1, h2]
      exact wfusers_updateFirst
        (wfusers_updateFirst (wfcodes_get_user h uid)
          (fun u => u.user_id == uid)
          (fun u => { u with referred_by := some code })
          (fun _ => rfl) (fun _ => rfl))
        (fun u => u.user_id == referring.user_id)
        (fun u => { u with referral_count := u.referral_count + 1,
                           credits := u.credits + referral_bonus })
        (fun _ => rfl) (fun _ => rfl)

theorem handle_url_db_cases (db : DB) (uid : Int) (url : String)
    (api : String → ApiResponse) :
    (handle_url db uid url api).2 = db ∨
    (handle_url db uid url api).2 = deduct_credits db uid := by
  unfold handle_url
  by_cases hs : schemeOk url
  · simp only [hs]
    cases api url with
    | none => simp
    | some r =>
      cases r with
      | none => simp
      | some s => simp
  · simp [hs]

theorem handle_emojis_db_cases (db : DB) (uid : Int) (stored emojis : String)
    (api : String → String → ApiResponse) :
    (handle_emojis db uid stored emojis api).2 = db ∨
    (handle_emojis db uid stored emojis api).2 = deduct_credits db uid := by
  unfold handle_emojis
  by_cases hs : strip_isEmpty emojis
  · simp [hs]
  · simp only [hs]
    cases api stored emojis with
    | none => simp
    | some r =>
      cases r with
      | none => simp
      | some s => simp

theorem reachable_wfcodes {db : DB} (h : Reachable db) : WFcodes db := by
  induction h with
  | init => intro u hu; simp [initDB] at hu
  | step_get db uid _ ih => exact wfcodes_get_user ih uid
  | step_add db uid amount _ ih => exact wfcodes_add ih uid amount
  | step_remove db uid amount _ ih => exact wfcodes_get_user ih uid
  | step_referral db uid code _ ih => exact wfcodes_handle_referral ih uid code
  | step_url db uid url api _ _ ih =>
    rcases handle_url_db_cases (has_sufficient_credits db uid).2 uid url api with h1 | h1 <;>
      rw [h1]
    · exact wfcodes_get_user ih uid
    · exact wfcodes_deduct (wfcodes_get_user ih uid) uid
  | step_emojis db uid stored emojis api _ _ ih =>
    rcases handle_emojis_db_cases (has_sufficient_credits db uid).2 uid stored emojis api with
      h1 | h1 <;> rw [h1]
    · exact wfcodes_get_user ih uid
    · exact wfcodes_deduct (wfcodes_get_user ih uid) uid

/-! ### Idempotence of referral attribution -/

theorem find_user_handle_referral_isSome (db : DB) (uid : Int) (c : String)
    (referring : UserRecord)
    (h1 : db.users.find? (fun u => u.referral_code == c) = some referring)
    (h2 : find_user db uid = none) :
    (find_user (handle_referral db uid c) uid).isSome = true := by
  simp only [handle_referral, h1, h2]
  show (List.find? (fun u => u.user_id == uid) (updateFirst _ _ _)).isSome = true
  rw [find?_isSome_updateFirst (fun u => u.user_id == referring.user_id)
        (fun u => u.user_id == uid)
        (fun u => { u with referral_count := u.referral_count + 1,
                           credits := u.credits + referral_bonus })
        (fun _ => rfl),
      find?_isSome_updateFirst (fun u => u.user_id == uid)
        (fun u => u.user_id == uid)
        (fun u => { u with referred_by := some c })
        (fun _ => rfl)]
  show (List.find? (fun u => u.user_id == uid) ((get_user db uid).2.users)).isSome = true
  simp only [get_user, h2]
  rw [List.find?_append]
  have hn : List.find? (fun u => u.user_id == uid) db.users = none := h2
  rw [hn]
  simp [newUserRecord]

theorem handle_referral_idem (db : DB) (uid : Int) (c : String) :
    handle_referral (handle_referral db uid c) uid c = handle_referral db uid c := by
  cases h1 : db.users.find? (fun u => u.referral_code == c) with
  | none =>
    have hd : handle_referral db uid c = db := by simp [handle_referral, h1]
    rw [hd]
    exact hd
  | some referring =>
    cases h2 : find_user db uid with
    | some u =>
      have hd : handle_referral db uid c = db := by simp [handle_referral, h1, h2]
      rw [hd]
      exact hd
    | none =>
      set D := handle_referral db uid c with hD
      have hsome : (find_user D uid).isSome = true := by
        rw [hD]
        exact find_user_handle_referral_isSome db uid c referring h1 h2
      obtain ⟨w, hw⟩ := Option.isSome_iff_exists.mp hsome
      cases h3 : D.users.find? (fun u => u.referral_code == c) with
      | none => simp [handle_referral, h3]
      | some r => simp [handle_referral, h3, hw]

theorem handle_referral_noop_of_existing (db : DB) (uid : Int) (c : String)
    (u : UserRecord) (h : find_user db uid = some u) :
    handle_referral db uid c = db := by
  cases h1 : db.users.find? (fun v => v.referral_code == c) with
  | none => simp [handle_referral, h1]
  | some referring => simp [handle_referral, h1, h]

/-! ### The membership check as a per-channel condition -/

theorem is_user_member_eq_true_iff (oracle : MemberOracle) :
    ∀ channels : List String,
      is_user_member oracle channels = true ↔
        ∀ ch ∈ channels, ∃ s, oracle ch = some s ∧ statusOk s = true := by
  intro channels
  induction channels with
  | nil => simp [is_user_member]
  | cons ch rest ih =>
    simp only [is_user_member]
    cases ho : oracle ch with
    | none => simp [ho]
    | some s =>
      by_cases hs : statusOk s
      · simp [hs, ih, ho]
      · simp [hs, ho]

/-! ## The claims -/

/-- A one-user database used in concrete instances: user 1 holds the given
balance and has created no URL. -/
def singleUserDB (credits : Int) : DB :=
  { users := [{ user_id := 1, credits := credits, urls_created := 0,
                referral_code := "ref1", referred_by := none, referral_count := 0 }],
    stats := { total_urls_created := 0, total_credits_used := 0 } }

/-- C1, counterexample: with a balance of 0 (< cost 5), `deduct_credits`
does not fail without mutation — it decrements anyway, leaving a balance of
-5 and bumping both stats counters; the claimed in-operation insufficiency
re-check does not exist. -/
theorem C1_deduct_counterexample :
    (find_user (singleUserDB 0) 1).map UserRecord.credits = some 0 ∧
    (0 : Int) < cost_per_url ∧
    deduct_credits (singleUserDB 0) 1 ≠ singleUserDB 0 ∧
    (find_user (deduct_credits (singleUserDB 0) 1) 1).map UserRecord.credits = some (-5) ∧
    (deduct_credits (singleUserDB 0) 1).stats.total_credits_used = 5 ∧
    (deduct_credits (singleUserDB 0) 1).stats.total_urls_created = 1 := by
  decide

/-- C1, amended: `deduct_credits` always — with no sufficiency check of its
own, hence even when `credits_before < cost` — decrements the stored credits
by `cost_per_url`, increments `urls_created` by 1, and increments the
StatsRecord's two counters by 1 and `cost_per_url`. -/
theorem C1_deduct_amended (db : DB) (uid : Int) (u : UserRecord)
    (h : find_user db uid = some u) :
    find_user (deduct_credits db uid) uid =
      some { u with credits := u.credits - cost_per_url,
                    urls_created := u.urls_created + 1 } ∧
    (deduct_credits db uid).stats.total_urls_created =
      db.stats.total_urls_created + 1 ∧
    (deduct_credits db uid).stats.total_credits_used =
      db.stats.total_credits_used + cost_per_url := by
  refine ⟨?_, rfl, rfl⟩
  show List.find? _ (updateFirst _ _ db.users) = _
  rw [find?_updateFirst_same (fun v => v.user_id == uid)
        (fun v => { v with credits := v.credits - cost_per_url,
                           urls_created := v.urls_created + 1 })
        (fun _ => rfl) db.users]
  have h' : List.find? (fun v => v.user_id == uid) db.users = some u := h
  rw [h']
  rfl

/-- The concrete record used in the C1 witness. -/
def uW1 : UserRecord :=
  { user_id := 1, credits := 20, urls_created := 0, referral_code := "ref1",
    referred_by := none, referral_count := 0 }

theorem C1_deduct_amended_witness :
    find_user (singleUserDB 20) 1 = some uW1 ∧
    (find_user (deduct_credits (singleUserDB 20) 1) 1 =
        some { uW1 with credits := uW1.credits - cost_per_url,
                        urls_created := uW1.urls_created + 1 } ∧
      (deduct_credits (singleUserDB 20) 1).stats.total_urls_created =
        (singleUserDB 20).stats.total_urls_created + 1 ∧
      (deduct_credits (singleUserDB 20) 1).stats.total_credits_used =
        (singleUserDB 20).stats.total_credits_used + cost_per_url) :=
  ⟨by decide, C1_deduct_amended (singleUserDB 20) 1 uW1 (by decide)⟩

/-- C2: `/removecredits 1 3` on a stored balance of 10 computes the clamped
value 7 only on the handler's local copy; the database value it leaves
behind is still 10 — the revoke is never persisted (the source's comment
claims MongoDB saves the local mutation automatically, which is false). -/
theorem C2_remove_credits_not_persisted :
    (remove_credits_cmd (singleUserDB 10) 1 3).1.credits = 7 ∧
    (remove_credits_cmd (singleUserDB 10) 1 3).2 = singleUserDB 10 ∧
    (find_user (remove_credits_cmd (singleUserDB 10) 1 3).2 1).map UserRecord.credits =
      some 10 := by
  decide

/-- C3, counterexample: `add_credits` with amount -5 on a balance of 3
stores -2, not the claimed clamp max(0, 3 - 5) = 0. -/
theorem C3_add_credits_counterexample :
    (find_user (add_credits (singleUserDB 3) 1 (-5)) 1).map UserRecord.credits =
      some (-2) ∧
    ¬ (find_user (add_credits (singleUserDB 3) 1 (-5)) 1).map UserRecord.credits =
        some 0 := by
  decide

/-- C3, amended: `add_credits` increments the stored credits by `amount`
(positive or negative) with no clamping at zero. -/
theorem C3_add_credits_amended (db : DB) (uid amount : Int) (u : UserRecord)
    (h : find_user db uid = some u) :
    find_user (add_credits db uid amount) uid =
      some { u with credits := u.credits + amount } := by
  show List.find? _ (updateFirst _ _ db.users) = _
  rw [find?_updateFirst_same (fun v => v.user_id == uid)
        (fun v => { v with credits := v.credits + amount })
        (fun _ => rfl) db.users]
  have h' : List.find? (fun v => v.user_id == uid) db.users = some u := h
  rw [h']
  rfl

/-- The concrete record used in the C3 witness. -/
def uW3 : UserRecord :=
  { user_id := 1, credits := 3, urls_created := 0, referral_code := "ref1",
    referred_by := none, referral_count := 0 }

theorem C3_add_credits_amended_witness :
    find_user (singleUserDB 3) 1 = some uW3 ∧
    find_user (add_credits (singleUserDB 3) 1 (-5)) 1 =
      some { uW3 with credits := uW3.credits + (-5) } :=
  ⟨by decide, C3_add_credits_amended (singleUserDB 3) 1 (-5) uW3 (by decide)⟩

/-- C4, counterexample: the state after `/start` by user 1 (creating the
record with 15 welcome credits) followed by the admin command
`/addcredits 1 -20` is reachable, and user 1's stored balance there is
-5 < 0. -/
theorem C4_negative_reachable_counterexample :
    Reachable (add_credits (get_user initDB 1).2 1 (-20)) ∧
    (find_user (add_credits (get_user initDB 1).2 1 (-20)) 1).map UserRecord.credits =
      some (-5) ∧
    ((-5 : Int) < 0) :=
  ⟨Reachable.step_add _ 1 (-20) (Reachable.step_get initDB 1 Reachable.init),
   by decide, by decide⟩

/-- C4, amended: a user's stored credits value CAN be negative in a
reachable state — `add_credits` applies negative admin amounts without
clamping and `deduct_credits` re-checks nothing — so the claimed invariant
fails. -/
theorem C4_amended_negative_credits_reachable :
    ∃ (db : DB) (r : UserRecord), Reachable db ∧ find_user db 1 = some r ∧
      r.credits < 0 :=
  ⟨add_credits (get_user initDB 1).2 1 (-20),
   { user_id := 1, credits := -5, urls_created := 0, referral_code := "ref1",
     referred_by := none, referral_count := 0 },
   Reachable.step_add _ 1 (-20) (Reachable.step_get initDB 1 Reachable.init),
   by decide, by decide⟩

/-- C5: referral attribution is idempotent per new-user id — running
`handle_referral` twice with the same arguments equals running it once, and
when the user already has a record the invocation leaves the database
unchanged. -/
theorem C5_referral_idempotent (db : DB) (uid : Int) (c : String) :
    handle_referral (handle_referral db uid c) uid c = handle_referral db uid c ∧
    ∀ u, find_user db uid = some u → handle_referral db uid c = db :=
  ⟨handle_referral_idem db uid c,
   fun u h => handle_referral_noop_of_existing db uid c u h⟩

/-- The concrete record used in the C5 witness. -/
def uW5 : UserRecord :=
  { user_id := 1, credits := 7, urls_created := 0, referral_code := "ref1",
    referred_by := none, referral_count := 0 }

theorem C5_referral_idempotent_witness :
    handle_referral (handle_referral (get_user initDB 2).2 3 "ref2") 3 "ref2" =
      handle_referral (get_user initDB 2).2 3 "ref2" ∧
    find_user (singleUserDB 7) 1 = some uW5 ∧
    handle_referral (singleUserDB 7) 1 "ref2" = singleUserDB 7 :=
  ⟨(C5_referral_idempotent (get_user initDB 2).2 3 "ref2").1,
   by decide,
   (C5_referral_idempotent (singleUserDB 7) 1 "ref2").2 uW5 (by decide)⟩

/-- C6: for a non-admin user, the membership gate runs the handler exactly
when every required channel's oracle query succeeds with status member,
administrator or creator; one failed lookup or non-member status — whatever
the other channels report — blocks with the join prompt. -/
theorem C6_membership_fail_closed (admin_ids : List Int) (channels : List String)
    (oracle : MemberOracle) (uid : Int) (h : is_admin admin_ids uid = false) :
    channel_required admin_ids channels oracle uid = .ranHandler ↔
      ∀ ch ∈ channels, ∃ s, oracle ch = some s ∧ statusOk s = true := by
  unfold channel_required
  rw [h]
  by_cases hm : is_user_member oracle channels
  · simpa [hm] using (is_user_member_eq_true_iff oracle channels).mp hm
  · simp only [Bool.false_eq_true, if_false, hm]
    constructor
    · intro hcontra
      exact absurd hcontra (by simp)
    · intro hall
      exact absurd ((is_user_member_eq_true_iff oracle channels).mpr hall) hm

theorem C6_membership_fail_closed_witness :
    is_admin [] 5 = false ∧
    (channel_required [] ["megahubbots"] (fun _ => none) 5 = .ranHandler ↔
      ∀ ch ∈ ["megahubbots"],
        ∃ s, (fun _ : String => (none : Option MemberStatus)) ch = some s ∧
          statusOk s = true) :=
  ⟨by decide, C6_membership_fail_closed [] ["megahubbots"] (fun _ => none) 5 (by decide)⟩

/-- C7: a configured admin id always gets the handler run by the membership
gate, whatever the oracle would answer — including an oracle that fails on
every channel. -/
theorem C7_admin_bypass (admin_ids : List Int) (channels : List String)
    (oracle : MemberOracle) (uid : Int) (h : is_admin admin_ids uid = true) :
    channel_required admin_ids channels oracle uid = .ranHandler := by
  unfold channel_required
  rw [h]
  rfl

theorem C7_admin_bypass_witness :
    is_admin [42] 42 = true ∧
    channel_required [42] ["megahubbots"] (fun _ => none) 42 = .ranHandler :=
  ⟨by decide, C7_admin_bypass [42] ["megahubbots"] (fun _ => none) 42 (by decide)⟩

/-- C8: every failure path of the two shortening handlers — bad scheme,
request failure / non-2xx, missing `short_url` field, whitespace-only emoji
input — reports an error and leaves the database (credits, `urls_created`,
stats) exactly unchanged; no debit happens, and the conversation ends. -/
theorem C8_no_debit_on_failure (db : DB) (uid : Int) (url stored emojis : String)
    (api : String → ApiResponse) (api2 : String → String → ApiResponse) :
    (schemeOk url = false → handle_url db uid url api = (.errorMsg, db)) ∧
    (api url = none → handle_url db uid url api = (.errorMsg, db)) ∧
    (api url = some none → handle_url db uid url api = (.errorMsg, db)) ∧
    (strip_isEmpty emojis = true →
      handle_emojis db uid stored emojis api2 = (.errorMsg, db)) ∧
    (api2 stored emojis = none →
      handle_emojis db uid stored emojis api2 = (.errorMsg, db)) ∧
    (api2 stored emojis = some none →
      handle_emojis db uid stored emojis api2 = (.errorMsg, db)) := by
  refine ⟨fun h1 => ?_, fun h2 => ?_, fun h3 => ?_, fun h4 => ?_, fun h5 => ?_,
    fun h6 => ?_⟩
  · simp [handle_url, h1]
  · by_cases hs : schemeOk url <;> simp [handle_url, hs, h2]
  · by_cases hs : schemeOk url <;> simp [handle_url, hs, h3]
  · simp [handle_emojis, h4]
  · by_cases hs : strip_isEmpty emojis <;> simp [handle_emojis, hs, h5]
  · by_cases hs : strip_isEmpty emojis <;> simp [handle_emojis, hs, h6]

theorem C8_no_debit_on_failure_witness :
    schemeOk "example.com" = false ∧
    strip_isEmpty "  " = true ∧
    handle_url (singleUserDB 15) 1 "example.com" (fun _ => some (some "s")) =
      (.errorMsg, singleUserDB 15) ∧
    handle_emojis (singleUserDB 15) 1 "https://e.com" "  " (fun _ _ => some (some "s")) =
      (.errorMsg, singleUserDB 15) :=
  ⟨by decide, by decide,
   (C8_no_debit_on_failure (singleUserDB 15) 1 "example.com" "https://e.com" "  "
      (fun _ => some (some "s")) (fun _ _ => some (some "s"))).1 (by decide),
   (C8_no_debit_on_failure (singleUserDB 15) 1 "example.com" "https://e.com" "  "
      (fun _ => some (some "s")) (fun _ _ => some (some "s"))).2.2.2.1 (by decide)⟩

/-- C9, counterexample: two concurrent `get_user` calls for the unseen id 7,
interleaved as find/find/insert/insert, both complete and leave TWO records
for id 7 — the read-then-write `find_one` + `insert_one` is not a
conditional insert. -/
theorem C9_get_user_counterexample :
    (runSched 7 [false, true, false, true] (initDB, initTask, initTask)).2.1.finished =
      true ∧
    (runSched 7 [false, true, false, true] (initDB, initTask, initTask)).2.2.finished =
      true ∧
    (runSched 7 [false, true, false, true] (initDB, initTask, initTask)).1.users.countP
      (fun u => u.user_id == 7) = 2 := by
  decide

/-- C9, amended: run sequentially (each call's find and insert uninterleaved),
`get_user` for a previously-unseen id creates exactly one record, initialized
with the welcome grant, and a repeated call observes that same record without
inserting again; but the creation is `find_one` followed by `insert_one`
(read-then-write), and an interleaving of two concurrent calls duplicates the
record. -/
theorem C9_get_user_amended (db : DB) (uid : Int)
    (h : find_user db uid = none) :
    (get_user db uid).1 = newUserRecord uid ∧
    (newUserRecord uid).credits = welcome_credits ∧
    (get_user (get_user db uid).2 uid).1 = newUserRecord uid ∧
    (get_user (get_user db uid).2 uid).2 = (get_user db uid).2 ∧
    (get_user db uid).2.users.countP (fun u => u.user_id == uid) = 1 := by
  have h1 : get_user db uid =
      (newUserRecord uid, { db with users := db.users ++ [newUserRecord uid] }) := by
    simp only [get_user, h]
  have hnew : find_user (get_user db uid).2 uid = some (newUserRecord uid) := by
    rw [h1]
    show List.find? _ (db.users ++ [newUserRecord uid]) = _
    rw [List.find?_append]
    have hn : List.find? (fun u => u.user_id == uid) db.users = none := h
    rw [hn]
    simp [newUserRecord]
  have h2 : get_user (get_user db uid).2 uid = (newUserRecord uid, (get_user db uid).2) := by
    generalize hG : (get_user db uid).2 = G at hnew ⊢
    simp only [get_user, hnew]
  have hzero : db.users.countP (fun u => u.user_id == uid) = 0 := by
    rw [List.countP_eq_zero]
    intro a ha
    exact List.find?_eq_none.mp h a ha
  refine ⟨by rw [h1], rfl, by rw [h2], by rw [h2], ?_⟩
  rw [h1]
  show (db.users ++ [newUserRecord uid]).countP (fun u => u.user_id == uid) = 1
  rw [List.countP_append, hzero]
  simp [newUserRecord]

theorem C9_get_user_amended_witness :
    find_user initDB 1 = none ∧
    ((get_user initDB 1).1 = newUserRecord 1 ∧
      (newUserRecord 1).credits = welcome_credits ∧
      (get_user (get_user initDB 1).2 1).1 = newUserRecord 1 ∧
      (get_user (get_user initDB 1).2 1).2 = (get_user initDB 1).2 ∧
      (get_user initDB 1).2.users.countP (fun u => u.user_id == 1) = 1) :=
  ⟨by decide, C9_get_user_amended initDB 1 (by decide)⟩

/-- C10: self-referral is impossible — in any reachable database, a user id
with no record yet who starts with their own referral code triggers no
attribution at all, because a record carrying that code could only be the
user's own. -/
theorem C10_self_referral_noop (db : DB) (uid : Int)
    (hr : Reachable db) (h : find_user db uid = none) :
    handle_referral db uid (referral_code_of uid) = db := by
  have hwf : WFcodes db := reachable_wfcodes hr
  cases h1 : db.users.find? (fun u => u.referral_code == referral_code_of uid) with
  | none => simp [handle_referral, h1]
  | some r =>
    exfalso
    have hmem := List.mem_of_find?_eq_some h1
    have hbeq := List.find?_some h1
    have hcode : r.referral_code = referral_code_of uid := by
      simpa using hbeq
    have heq : referral_code_of r.user_id = referral_code_of uid := by
      rw [← hwf r hmem, hcode]
    have hid : r.user_id = uid := referral_code_of_inj heq
    have hnone := List.find?_eq_none.mp h r hmem
    simp [hid] at hnone

theorem C10_self_referral_noop_witness :
    find_user (get_user initDB 2).2 1 = none ∧
    handle_referral (get_user initDB 2).2 1 (referral_code_of 1) = (get_user initDB 2).2 :=
  ⟨by decide,
   C10_self_referral_noop (get_user initDB 2).2 1
     (Reachable.step_get initDB 2 Reachable.init) (by decide)⟩

end LinkShortener
